import Mathlib

/-!
Verification of the zebras label-printer library: a shallow embedding of
the ZPL command serializer, the raster codec and the telemetry decoders
from src/zpl.rs, src/printer_status.rs and src/app.rs.

Rust strings are modelled as lists of characters (ASCII payloads in this
protocol, so byte indices and character indices coincide); u32 and u8
arithmetic is modelled on Nat with an explicit modulus where the source
can overflow.
-/

/-- Characters of a string literal, the model of a Rust string constant. -/
abbrev str (s : String) : List Char := s.data

/-- Model of Rust char::is_whitespace restricted to the ASCII range
(space, tab, newline, vertical tab, form feed, carriage return). -/
def isRustWhitespace (c : Char) : Bool :=
  decide (c.toNat = 32 ∨ c.toNat = 9 ∨ c.toNat = 10 ∨ c.toNat = 11 ∨ c.toNat = 12 ∨ c.toNat = 13)

/-- An ASCII decimal digit, the set accepted per character by
str::parse::<u32>. -/
def isDecDigit (c : Char) : Bool :=
  decide (48 ≤ c.toNat ∧ c.toNat ≤ 57)

/-- Model of Rust char::is_ascii_hexdigit, also the digit set accepted by
u32::from_str_radix with radix 16. -/
def isAsciiHexDigit (c : Char) : Bool :=
  isDecDigit c || decide (97 ≤ c.toNat ∧ c.toNat ≤ 102) || decide (65 ≤ c.toNat ∧ c.toNat ≤ 70)

/-- Numeric value of a hexadecimal digit character. -/
def hexDigitVal (c : Char) : Nat :=
  if isDecDigit c then c.toNat - 48
  else if 97 ≤ c.toNat then c.toNat - 87
  else c.toNat - 55

/-- Model of Rust str::trim: strip whitespace from both ends. -/
def trimChars (l : List Char) : List Char :=
  ((l.dropWhile isRustWhitespace).reverse.dropWhile isRustWhitespace).reverse

/-- Split a character list at every character satisfying the predicate,
keeping empty pieces, as Rust str::split does. -/
def splitOnP (p : Char → Bool) : List Char → List (List Char)
  | [] => [[]]
  | c :: rest =>
    if p c then [] :: splitOnP p rest
    else
      match splitOnP p rest with
      | [] => [[c]]
      | h :: t => (c :: h) :: t

/-- Model of Rust str::split with a single-character pattern. -/
def splitOnChar (sep : Char) (l : List Char) : List (List Char) :=
  splitOnP (fun c => c == sep) l

/-- Model of Rust str::split_whitespace: split on whitespace runs,
dropping empty pieces. -/
def splitWhitespaceChars (l : List Char) : List (List Char) :=
  (splitOnP isRustWhitespace l).filter (fun w => !w.isEmpty)

/-- Strip one trailing carriage return, as Rust str::lines does on each
produced line. -/
def stripTrailingCR (l : List Char) : List Char :=
  if l.getLast? = some '\r' then l.dropLast else l

/-- Model of Rust str::lines: split on newline, drop the final empty piece
produced by a terminating newline, strip one trailing carriage return per
line. -/
def linesChars (l : List Char) : List (List Char) :=
  let ps := splitOnChar '\n' l
  let ps := if ps.getLast? = some [] then ps.dropLast else ps
  ps.map stripTrailingCR

/-- Strip one leading plus sign, as the Rust unsigned integer parsers
accept before the digits. -/
def stripPlus : List Char → List Char
  | '+' :: r => r
  | s => s

/-- Model of Rust str::parse applied at type u32 (u32::from_str): an
optional leading plus sign, then one or more decimal digits, rejecting
the empty string and values of 2^32 or more. -/
def parseU32 (s : List Char) : Option Nat :=
  let t := stripPlus s
  if t.isEmpty then none
  else if t.all isDecDigit then
    let v := t.foldl (fun a c => a * 10 + (c.toNat - 48)) 0
    if v < 4294967296 then some v else none
  else none

/-- Model of Rust u32::from_str_radix with radix 16: an optional leading
plus sign, then one or more hexadecimal digits of either case, rejecting
the empty string and values of 2^32 or more. -/
def fromStrRadix16 (s : List Char) : Option Nat :=
  let t := stripPlus s
  if t.isEmpty then none
  else if t.all isAsciiHexDigit then
    let v := t.foldl (fun a c => a * 16 + hexDigitVal c) 0
    if v < 4294967296 then some v else none
  else none

/-- Fuel-bounded digit rendering, most significant digit first; the fuel
dominates the recursion depth so the definition is structural. -/
def natDigitsAux : Nat → Nat → List Char
  | 0, _ => []
  | fuel + 1, n =>
    if n < 10 then [Char.ofNat (48 + n)]
    else natDigitsAux fuel (n / 10) ++ [Char.ofNat (48 + n % 10)]

/-- Decimal rendering of an unsigned integer, the model of the Rust
Display implementation used by the format macro on u8 and u32 fields. -/
def natDigits (n : Nat) : List Char :=
  natDigitsAux (n + 1) n

/-- Uppercase hexadecimal digit character for a value below 16, as
produced by the Rust 02X format specifier. -/
def hexDigitChar (n : Nat) : Char :=
  if n < 10 then Char.ofNat (48 + n) else Char.ofNat (55 + n)

/-- Two uppercase hexadecimal characters for one byte, the Rust 02X
format applied to a u8. -/
def byteToHex (b : Nat) : List Char :=
  [hexDigitChar (b / 16), hexDigitChar (b % 16)]

/-- Model of Rust str::find with a string pattern: index of the first
occurrence of the pattern, if any. -/
def findSubIdx (pat : List Char) : List Char → Option Nat
  | [] => if pat.isPrefixOf ([] : List Char) then some 0 else none
  | c :: rest =>
    if pat.isPrefixOf (c :: rest) then some 0
    else (findSubIdx pat rest).map (· + 1)

/-! ## Command model and serializer (src/zpl.rs) -/

/-- Four-way orientation for the font command, from src/zpl.rs. -/
inductive FontOrientation
  | normal
  | rotated90
  | rotated180
  | rotated270
deriving DecidableEq

/-- Four-way orientation for barcode commands, from src/zpl.rs. -/
inductive FieldOrientation
  | normal
  | rotated90
  | rotated180
  | rotated270
deriving DecidableEq

/-- Four-way rotation for the field orientation command, from src/zpl.rs. -/
inductive FieldRotation
  | normal
  | rotated90
  | rotated180
  | rotated270
deriving DecidableEq

/-- Display implementation for FontOrientation from src/zpl.rs. -/
def FontOrientation.display : FontOrientation → List Char
  | .normal => str "N"
  | .rotated90 => str "R"
  | .rotated180 => str "I"
  | .rotated270 => str "B"

/-- Display implementation for FieldOrientation from src/zpl.rs. -/
def FieldOrientation.display : FieldOrientation → List Char
  | .normal => str "N"
  | .rotated90 => str "R"
  | .rotated180 => str "I"
  | .rotated270 => str "B"

/-- Display implementation for FieldRotation from src/zpl.rs. -/
def FieldRotation.display : FieldRotation → List Char
  | .normal => str "N"
  | .rotated90 => str "R"
  | .rotated180 => str "I"
  | .rotated270 => str "B"

/-- The ZplCommand enum from src/zpl.rs. Unsigned integer fields are Nat
(u32 or u8 in the source); the f32 ratio of BarcodeFieldDefault is
modelled by its rendered decimal text, the only operation the source
ever applies to it being Display formatting. -/
inductive ZplCommand
  | startFormat
  | endFormat
  | fieldOrigin (x y : Nat)
  | font (orientation : FontOrientation) (height width : Nat)
  | fieldData (data : List Char)
  | fieldSeparator
  | graphicBox (width height thickness : Nat) (color : Option Char) (rounding : Option Nat)
  | changeFont (font : List Char) (size : Nat)
  | fieldOrientation (rotation : FieldRotation)
  | barcodeFieldDefault (width : Nat) (ratio : List Char) (height : Nat)
  | code128Barcode (orientation : FieldOrientation) (height : Nat)
      (print_interpretation print_above check_digit : Bool) (mode : FieldOrientation)
  | graphicField (width height : Nat) (data : List Char)
  | downloadGraphic (name : List Char) (width height : Nat) (data : List Char)
  | recallGraphic (name : List Char) (magnification_x magnification_y : Nat)
  | mediaModeDelayed
  | mediaModeTearOff
  | cutNow
deriving DecidableEq

/-- The hex-payload normalization applied inline by the GraphicField and
DownloadGraphic serializer arms in src/zpl.rs: remove commas, spaces,
newlines and carriage returns, then uppercase. -/
def clean_data (data : List Char) : List Char :=
  ((((data.filter (fun c => c != ',')).filter (fun c => c != ' ')).filter
      (fun c => c != '\n')).filter (fun c => c != '\r')).map Char.toUpper

/-- ZplCommand::to_zpl_string from src/zpl.rs. The u32 additions and
multiplications in the raster arms wrap modulo 2^32. -/
def ZplCommand.to_zpl_string : ZplCommand → List Char
  | .startFormat => str "^XA"
  | .endFormat => str "^XZ"
  | .fieldOrigin x y => str "^FO" ++ natDigits x ++ str "," ++ natDigits y
  | .font orientation height width =>
    str "^A0" ++ orientation.display ++ str "," ++ natDigits height ++ str "," ++ natDigits width
  | .fieldData data => str "^FD" ++ data
  | .fieldSeparator => str "^FS"
  | .graphicBox width height thickness color rounding =>
    let result := str "^GB" ++ natDigits width ++ str "," ++ natDigits height ++ str "," ++
      natDigits thickness
    match color, rounding with
    | some color_char, some rounding_value =>
      result ++ str "," ++ [color_char] ++ str "," ++ natDigits rounding_value
    | some color_char, none => result ++ str "," ++ [color_char]
    | none, some rounding_value => result ++ str ",," ++ natDigits rounding_value
    | none, none => result
  | .changeFont fnt size => str "^CF" ++ fnt ++ str "," ++ natDigits size
  | .fieldOrientation rotation => str "^FW" ++ rotation.display
  | .barcodeFieldDefault width ratio height =>
    str "^BY" ++ natDigits width ++ str "," ++ ratio ++ str "," ++ natDigits height
  | .code128Barcode orientation height print_interpretation print_above check_digit mode =>
    str "^BC" ++ orientation.display ++ str "," ++ natDigits height ++ str "," ++
      (if print_interpretation then str "Y" else str "N") ++ str "," ++
      (if print_above then str "Y" else str "N") ++ str "," ++
      (if check_digit then str "Y" else str "N") ++ str "," ++ mode.display
  | .graphicField width height data =>
    let bytes_per_row := ((width + 7) % 4294967296) / 8
    let total_bytes := (bytes_per_row * height) % 4294967296
    str "^GFA," ++ natDigits total_bytes ++ str "," ++ natDigits total_bytes ++ str "," ++
      natDigits bytes_per_row ++ str "," ++ clean_data data
  | .downloadGraphic name width height data =>
    let bytes_per_row := ((width + 7) % 4294967296) / 8
    let total_bytes := (bytes_per_row * height) % 4294967296
    str "~DG" ++ name ++ str "," ++ natDigits total_bytes ++ str "," ++
      natDigits bytes_per_row ++ str "," ++ clean_data data
  | .recallGraphic name magnification_x magnification_y =>
    str "^XG" ++ name ++ str "," ++ natDigits magnification_x ++ str "," ++
      natDigits magnification_y
  | .mediaModeDelayed => str "^MMD"
  | .mediaModeTearOff => str "^MMT"
  | .cutNow => str "~JK"

/-- commands_to_zpl from src/zpl.rs: serialize each command and join the
results with newlines. -/
def commands_to_zpl (commands : List ZplCommand) : List Char :=
  List.intercalate (str "\n") (commands.map ZplCommand.to_zpl_string)

/-- The ZplLabel builder from src/zpl.rs, holding its command list. -/
structure ZplLabel where
  commands : List ZplCommand

/-- The private ZplLabel::to_zpl from src/zpl.rs, which repeats the
serialization match of ZplCommand::to_zpl_string arm by arm and joins
the per-command texts with newlines. -/
def ZplLabel.to_zpl (label : ZplLabel) : List Char :=
  List.intercalate (str "\n")
    (label.commands.map (fun cmd =>
      match cmd with
      | .startFormat => str "^XA"
      | .endFormat => str "^XZ"
      | .fieldOrigin x y => str "^FO" ++ natDigits x ++ str "," ++ natDigits y
      | .font orientation height width =>
        str "^A0" ++ orientation.display ++ str "," ++ natDigits height ++ str "," ++
          natDigits width
      | .fieldData data => str "^FD" ++ data
      | .fieldSeparator => str "^FS"
      | .graphicBox width height thickness color rounding =>
        let result := str "^GB" ++ natDigits width ++ str "," ++ natDigits height ++ str "," ++
          natDigits thickness
        match color, rounding with
        | some color_char, some rounding_value =>
          result ++ str "," ++ [color_char] ++ str "," ++ natDigits rounding_value
        | some color_char, none => result ++ str "," ++ [color_char]
        | none, some rounding_value => result ++ str ",," ++ natDigits rounding_value
        | none, none => result
      | .changeFont fnt size => str "^CF" ++ fnt ++ str "," ++ natDigits size
      | .fieldOrientation rotation => str "^FW" ++ rotation.display
      | .barcodeFieldDefault width ratio height =>
        str "^BY" ++ natDigits width ++ str "," ++ ratio ++ str "," ++ natDigits height
      | .code128Barcode orientation height print_interpretation print_above check_digit mode =>
        str "^BC" ++ orientation.display ++ str "," ++ natDigits height ++ str "," ++
          (if print_interpretation then str "Y" else str "N") ++ str "," ++
          (if print_above then str "Y" else str "N") ++ str "," ++
          (if check_digit then str "Y" else str "N") ++ str "," ++ mode.display
      | .graphicField width height data =>
        let bytes_per_row := ((width + 7) % 4294967296) / 8
        let total_bytes := (bytes_per_row * height) % 4294967296
        str "^GFA," ++ natDigits total_bytes ++ str "," ++ natDigits total_bytes ++ str "," ++
          natDigits bytes_per_row ++ str "," ++ clean_data data
      | .downloadGraphic name width height data =>
        let bytes_per_row := ((width + 7) % 4294967296) / 8
        let total_bytes := (bytes_per_row * height) % 4294967296
        str "~DG" ++ name ++ str "," ++ natDigits total_bytes ++ str "," ++
          natDigits bytes_per_row ++ str "," ++ clean_data data
      | .recallGraphic name magnification_x magnification_y =>
        str "^XG" ++ name ++ str "," ++ natDigits magnification_x ++ str "," ++
          natDigits magnification_y
      | .mediaModeDelayed => str "^MMD"
      | .mediaModeTearOff => str "^MMT"
      | .cutNow => str "~JK"))

/-! ## Raster codec (src/zpl.rs) -/

/-- One RGBA pixel; the components are u8 values in the source. -/
structure Rgba where
  r : Nat
  g : Nat
  b : Nat
  a : Nat

/-- A bitmap as exposed by the image crate: dimensions plus a pixel
accessor. -/
structure DynamicImage where
  width : Nat
  height : Nat
  pixel : Nat → Nat → Rgba

/-- rgb_to_grayscale from src/zpl.rs: fixed 299/587/114 luminance
weights; the final cast to u8 is the modulus (an identity for genuine
u8 components). -/
def rgb_to_grayscale (p : Rgba) : Nat :=
  ((p.r * 299 + p.g * 587 + p.b * 114) / 1000) % 256

/-- One packed row of image_to_zpl_hex from src/zpl.rs: bytes start at
zero and each pixel strictly below the threshold sets its bit, most
significant bit first. -/
def rowBytes (image : DynamicImage) (threshold : Nat) (y : Nat) : List Nat :=
  (List.range image.width).foldl
    (fun row_bytes x =>
      if rgb_to_grayscale (image.pixel x y) < threshold then
        let byte_index := x / 8
        row_bytes.set byte_index ((row_bytes.getD byte_index 0) ||| (1 <<< (7 - x % 8)))
      else row_bytes)
    (List.replicate (((image.width + 7) % 4294967296) / 8) 0)

/-- image_to_zpl_hex from src/zpl.rs: two uppercase hex characters per
packed byte, rows concatenated without separators. -/
def image_to_zpl_hex (image : DynamicImage) (threshold : Nat) : List Char :=
  (((List.range image.height).map
    (fun y => ((rowBytes image threshold y).map byteToHex).flatten)).flatten)

/-- The header-locating half of parse_graphic_field_from_zpl from
src/zpl.rs: find the caret GF marker case-insensitively, require the A
comma lead-in, and cut the section at the next caret. -/
def gfaData (zpl : List Char) : Option (List Char) :=
  match findSubIdx (str "^GF") (zpl.map Char.toUpper) with
  | none => none
  | some gf_start =>
    let after_gf := zpl.drop (gf_start + 3)
    if (str "A,").isPrefixOf after_gf || (str "A,").isPrefixOf (after_gf.map Char.toUpper) then
      let gfa_section := zpl.drop (gf_start + 5)
      let end_pos := (gfa_section.findIdx? (fun c => c == '^')).getD gfa_section.length
      some (gfa_section.take end_pos)
    else none

/-- The field-parsing half of parse_graphic_field_from_zpl from
src/zpl.rs: split on commas, parse the first and third fields as u32,
normalize the payload, and recover width and height; the u32 width
multiplication wraps modulo 2^32. -/
def parseGfaParts (gfa_data : List Char) : Option (Nat × Nat × List Char) :=
  let parts := splitOnChar ',' gfa_data
  if 4 ≤ parts.length then
    match parseU32 (trimChars (parts.getD 0 [])), parseU32 (trimChars (parts.getD 2 [])) with
    | some total_bytes, some bytes_per_row =>
      let hex_data := clean_data (((parts.drop 3).map splitWhitespaceChars).flatten).flatten
      let height := if bytes_per_row > 0 then total_bytes / bytes_per_row else 0
      let width := (bytes_per_row * 8) % 4294967296
      some (width, height, hex_data)
    | _, _ => none
  else none

/-- parse_graphic_field_from_zpl from src/zpl.rs. -/
def parse_graphic_field_from_zpl (zpl : List Char) : Option (Nat × Nat × List Char) :=
  match gfaData zpl with
  | some d => parseGfaParts d
  | none => none

/-! ## Telemetry decoder (src/printer_status.rs) -/

/-- The ErrorFlags 32-bit flag set from src/printer_status.rs. -/
structure ErrorFlags where
  bits : Nat
deriving DecidableEq

/-- The WarningFlags 32-bit flag set from src/printer_status.rs. -/
structure WarningFlags where
  bits : Nat
deriving DecidableEq

def ErrorFlags.MEDIA_OUT : Nat := 0x00000001
def ErrorFlags.RIBBON_OUT : Nat := 0x00000002
def ErrorFlags.HEAD_OPEN : Nat := 0x00000004
def ErrorFlags.CUTTER_FAULT : Nat := 0x00000008
def ErrorFlags.PRINTHEAD_OVER_TEMPERATURE : Nat := 0x00000010
def ErrorFlags.MOTOR_OVER_TEMPERATURE : Nat := 0x00000020
def ErrorFlags.BAD_PRINTHEAD_ELEMENT : Nat := 0x00000040
def ErrorFlags.PRINTHEAD_DETECTION_ERROR : Nat := 0x00000080
def ErrorFlags.INVALID_FIRMWARE_CONFIG : Nat := 0x00000100
def ErrorFlags.PRINTHEAD_THERMISTOR_OPEN : Nat := 0x00000200
def ErrorFlags.PAUSED : Nat := 0x00001000
def ErrorFlags.RETRACT_FUNCTION_TIMED_OUT : Nat := 0x00002000
def ErrorFlags.BLACK_MARK_CALIBRATE_ERROR : Nat := 0x00004000
def ErrorFlags.BLACK_MARK_NOT_FOUND : Nat := 0x00008000
def ErrorFlags.PAPER_JAM_DURING_RETRACT : Nat := 0x00010000
def ErrorFlags.PRESENTER_NOT_RUNNING : Nat := 0x00020000
def ErrorFlags.PAPER_FEED_ERROR : Nat := 0x00040000
def ErrorFlags.CLEAR_PAPER_PATH_FAILED : Nat := 0x00080000

def ErrorFlags.empty : ErrorFlags := ⟨0⟩

def ErrorFlags.from_hex (bits : Nat) : ErrorFlags := ⟨bits⟩

def ErrorFlags.is_empty (f : ErrorFlags) : Bool := f.bits == 0

def ErrorFlags.contains (f : ErrorFlags) (flag : Nat) : Bool := (f.bits &&& flag) != 0

/-- ErrorFlags::to_descriptions from src/printer_status.rs: one fixed
description per set bit, pushed in bit-position-ascending order. -/
def ErrorFlags.to_descriptions (f : ErrorFlags) : List (List Char) :=
  (if f.contains MEDIA_OUT then [str "Media out or not loaded"] else []) ++
  (if f.contains RIBBON_OUT then [str "Ribbon out or not loaded"] else []) ++
  (if f.contains HEAD_OPEN then [str "Head open / Cover open"] else []) ++
  (if f.contains CUTTER_FAULT then [str "Cutter fault"] else []) ++
  (if f.contains PRINTHEAD_OVER_TEMPERATURE then [str "Printhead over temperature"] else []) ++
  (if f.contains MOTOR_OVER_TEMPERATURE then [str "Motor over temperature"] else []) ++
  (if f.contains BAD_PRINTHEAD_ELEMENT then [str "Bad printhead element"] else []) ++
  (if f.contains PRINTHEAD_DETECTION_ERROR then [str "Printhead detection error"] else []) ++
  (if f.contains INVALID_FIRMWARE_CONFIG then [str "Invalid firmware configuration"] else []) ++
  (if f.contains PRINTHEAD_THERMISTOR_OPEN then [str "Printhead thermistor open"] else []) ++
  (if f.contains PAUSED then [str "Printer paused"] else []) ++
  (if f.contains RETRACT_FUNCTION_TIMED_OUT then [str "Retract function timed out (KR403 only)"]
   else []) ++
  (if f.contains BLACK_MARK_CALIBRATE_ERROR then [str "Black mark calibrate error (KR403 only)"]
   else []) ++
  (if f.contains BLACK_MARK_NOT_FOUND then [str "Black mark not found (KR403 only)"] else []) ++
  (if f.contains PAPER_JAM_DURING_RETRACT then [str "Paper jam during retract (KR403 only)"]
   else []) ++
  (if f.contains PRESENTER_NOT_RUNNING then [str "Presenter not running (KR403 only)"] else []) ++
  (if f.contains PAPER_FEED_ERROR then [str "Paper feed error (KR403 only)"] else []) ++
  (if f.contains CLEAR_PAPER_PATH_FAILED then [str "Clear paper path failed (KR403 only)"]
   else [])

def WarningFlags.NEED_TO_CALIBRATE_MEDIA : Nat := 0x00000001
def WarningFlags.CLEAN_PRINTHEAD : Nat := 0x00000002
def WarningFlags.REPLACE_PRINTHEAD : Nat := 0x00000004
def WarningFlags.PAPER_NEAR_END_SENSOR : Nat := 0x00000008
def WarningFlags.SENSOR_1_PAPER_BEFORE_HEAD : Nat := 0x00000010
def WarningFlags.SENSOR_2_BLACK_MARK : Nat := 0x00000020
def WarningFlags.SENSOR_3_PAPER_AFTER_HEAD : Nat := 0x00000040
def WarningFlags.SENSOR_4_LOOP_READY : Nat := 0x00000080
def WarningFlags.SENSOR_5_PRESENTER : Nat := 0x00000100
def WarningFlags.SENSOR_6_RETRACT_READY : Nat := 0x00000200
def WarningFlags.SENSOR_7_IN_RETRACT : Nat := 0x00000400
def WarningFlags.SENSOR_8_AT_BIN : Nat := 0x00000800

def WarningFlags.empty : WarningFlags := ⟨0⟩

def WarningFlags.from_hex (bits : Nat) : WarningFlags := ⟨bits⟩

def WarningFlags.is_empty (f : WarningFlags) : Bool := f.bits == 0

def WarningFlags.contains (f : WarningFlags) (flag : Nat) : Bool := (f.bits &&& flag) != 0

/-- WarningFlags::to_descriptions from src/printer_status.rs. -/
def WarningFlags.to_descriptions (f : WarningFlags) : List (List Char) :=
  (if f.contains NEED_TO_CALIBRATE_MEDIA then [str "Need to calibrate media"] else []) ++
  (if f.contains CLEAN_PRINTHEAD then [str "Clean printhead"] else []) ++
  (if f.contains REPLACE_PRINTHEAD then [str "Replace printhead"] else []) ++
  (if f.contains PAPER_NEAR_END_SENSOR then [str "Paper near end sensor (KR403 only)"] else []) ++
  (if f.contains SENSOR_1_PAPER_BEFORE_HEAD then [str "Sensor 1: Paper before head (KR403 only)"]
   else []) ++
  (if f.contains SENSOR_2_BLACK_MARK then [str "Sensor 2: Black mark (KR403 only)"] else []) ++
  (if f.contains SENSOR_3_PAPER_AFTER_HEAD then [str "Sensor 3: Paper after head (KR403 only)"]
   else []) ++
  (if f.contains SENSOR_4_LOOP_READY then [str "Sensor 4: Loop ready (KR403 only)"] else []) ++
  (if f.contains SENSOR_5_PRESENTER then [str "Sensor 5: Presenter (KR403 only)"] else []) ++
  (if f.contains SENSOR_6_RETRACT_READY then [str "Sensor 6: Retract ready (KR403 only)"]
   else []) ++
  (if f.contains SENSOR_7_IN_RETRACT then [str "Sensor 7: In retract (KR403 only)"] else []) ++
  (if f.contains SENSOR_8_AT_BIN then [str "Sensor 8: At bin (KR403 only)"] else [])

deriving instance DecidableEq for Except

/-- The PrinterStatus record from src/printer_status.rs. -/
structure PrinterStatus where
  errors : ErrorFlags
  warnings : WarningFlags
deriving DecidableEq

/-- A trimmed line carrying the ERRORS: label, the condition the status
parser branches on. -/
def isErrorsLine (l : List Char) : Bool :=
  (str "ERRORS:").isPrefixOf (trimChars l)

/-- A trimmed line carrying the WARNINGS: label, the condition the status
parser branches on. -/
def isWarningsLine (l : List Char) : Bool :=
  (str "WARNINGS:").isPrefixOf (trimChars l)

/-- The line loop of PrinterStatus::parse from src/printer_status.rs:
scan each line, overwrite the matching flag set when a labeled line has
at least four whitespace-separated tokens, and abort with the invalid
hex message when the fourth token fails to parse. -/
def parseStatusLines : List (List Char) → ErrorFlags → WarningFlags →
    Except (List Char) PrinterStatus
  | [], errors, warnings => .ok ⟨errors, warnings⟩
  | l :: rest, errors, warnings =>
    let line := trimChars l
    if (str "ERRORS:").isPrefixOf line then
      let parts := splitWhitespaceChars line
      if 4 ≤ parts.length then
        let hex_value := parts.getD 3 []
        match fromStrRadix16 hex_value with
        | none => .error (str "Invalid hex value: " ++ hex_value)
        | some error_value => parseStatusLines rest (ErrorFlags.from_hex error_value) warnings
      else parseStatusLines rest errors warnings
    else if (str "WARNINGS:").isPrefixOf line then
      let parts := splitWhitespaceChars line
      if 4 ≤ parts.length then
        let hex_value := parts.getD 3 []
        match fromStrRadix16 hex_value with
        | none => .error (str "Invalid hex value: " ++ hex_value)
        | some warning_value => parseStatusLines rest errors (WarningFlags.from_hex warning_value)
      else parseStatusLines rest errors warnings
    else parseStatusLines rest errors warnings

/-- PrinterStatus::parse from src/printer_status.rs. -/
def PrinterStatus.parse (response : List Char) : Except (List Char) PrinterStatus :=
  parseStatusLines (linesChars response) ErrorFlags.empty WarningFlags.empty

/-- PrinterStatus::is_ok from src/printer_status.rs. -/
def PrinterStatus.is_ok (s : PrinterStatus) : Bool :=
  s.errors.is_empty && s.warnings.is_empty

/-- The MemoryStatus record from src/printer_status.rs. -/
structure MemoryStatus where
  total_ram_kb : Nat
  max_available_kb : Nat
  current_available_kb : Nat
deriving DecidableEq

/-- PrinterInfo::parse_memory_status from src/printer_status.rs: the
first line must split on commas into exactly three u32 fields. -/
def PrinterInfo.parse_memory_status (response : List Char) : Option MemoryStatus :=
  match (linesChars response).head? with
  | none => none
  | some first =>
    let line := trimChars first
    let parts := splitOnChar ',' line
    if parts.length = 3 then
      match parseU32 (trimChars (parts.getD 0 [])), parseU32 (trimChars (parts.getD 1 [])),
          parseU32 (trimChars (parts.getD 2 [])) with
      | some total_ram, some max_available, some current_available =>
        some ⟨total_ram, max_available, current_available⟩
      | _, _, _ => none
    else none

/-- The colon-separated octet formatting of a twelve-character hardware
address line, from PrinterInfo::parse_hardware_address. -/
def formatMac (line : List Char) : List Char :=
  line.take 2 ++ str ":" ++ (line.drop 2).take 2 ++ str ":" ++ (line.drop 4).take 2 ++ str ":" ++
    (line.drop 6).take 2 ++ str ":" ++ (line.drop 8).take 2 ++ str ":" ++ (line.drop 10).take 2

/-- The line loop of PrinterInfo::parse_hardware_address from
src/printer_status.rs. -/
def hwAddrLines : List (List Char) → Option (List Char)
  | [] => none
  | l :: rest =>
    let line := trimChars l
    if line.length = 12 ∧ line.all isAsciiHexDigit then some (formatMac line)
    else if !line.isEmpty && line.head? != some '<' then some line
    else hwAddrLines rest

/-- PrinterInfo::parse_hardware_address from src/printer_status.rs. -/
def PrinterInfo.parse_hardware_address (response : List Char) : Option (List Char) :=
  hwAddrLines (linesChars response)

/-! ## Memory aggregation in the batch query (src/app.rs) -/

/-- The used-memory computation of the query-all handler in src/app.rs:
max_available_kb.saturating_sub(current_available_kb), which Nat
subtraction models exactly. -/
def memoryUsedKb (m : MemoryStatus) : Nat :=
  m.max_available_kb - m.current_available_kb

/-- The usage-percent computation of the query-all handler in src/app.rs.
The source computes (used as f32 / max as f32 * 100.0) as u32; this model
uses exact rational arithmetic floored to a natural number, which agrees
with the f32 computation whenever the f32 rounding error does not carry
the value across an integer boundary (in particular at the concrete
values of the memory-decode claim, where 256 / 768 * 100 truncates to 33
in both arithmetics). -/
def memoryUsagePercent (m : MemoryStatus) : Nat :=
  if m.max_available_kb > 0 then memoryUsedKb m * 100 / m.max_available_kb else 0

/-- Characters that can appear in the uppercase hexadecimal payload. -/
def isUpperHexChar (c : Char) : Prop :=
  (48 ≤ c.toNat ∧ c.toNat ≤ 57) ∨ (65 ≤ c.toNat ∧ c.toNat ≤ 70)

/-- A line that makes PrinterStatus::parse abort: it carries one of the
two labels, has at least four whitespace-separated tokens, and its
fourth token is not a valid hexadecimal u32. -/
def statusBadLine (l : List Char) : Prop :=
  (isErrorsLine l = true ∨ isWarningsLine l = true) ∧
  4 ≤ (splitWhitespaceChars (trimChars l)).length ∧
  fromStrRadix16 ((splitWhitespaceChars (trimChars l)).getD 3 []) = none

instance (l : List Char) : Decidable (statusBadLine l) := by
  unfold statusBadLine
  infer_instance

/-- A one-by-one all-black test bitmap. -/
def img1x1 : DynamicImage := ⟨1, 1, fun _ _ => ⟨0, 0, 0, 255⟩⟩

/-- An eight-by-one all-white test bitmap. -/
def img8x1 : DynamicImage := ⟨8, 1, fun _ _ => ⟨255, 255, 255, 255⟩⟩


/-! ## Character-level facts -/

theorem charOfNat_toNat {n : Nat} (h : n < 55296) : (Char.ofNat n).toNat = n := by
  rw [Char.ofNat, dif_pos (Or.inl h)]
  rfl

theorem char_ne_of_toNat_ne {c d : Char} (h : c.toNat ≠ d.toNat) : c ≠ d := by
  intro he
  exact h (by rw [he])

theorem toUpper_eq_of_not_lower {c : Char} (h : ¬ (97 ≤ c.toNat ∧ c.toNat ≤ 122)) :
    c.toUpper = c := by
  rw [Char.toUpper, if_neg h]

theorem toUpper_toNat_of_lower {c : Char} (h1 : 97 ≤ c.toNat) (h2 : c.toNat ≤ 122) :
    c.toUpper.toNat = c.toNat - 32 := by
  rw [Char.toUpper, if_pos ⟨h1, h2⟩]
  exact charOfNat_toNat (by omega)

theorem toUpper_toUpper (c : Char) : c.toUpper.toUpper = c.toUpper := by
  by_cases h : 97 ≤ c.toNat ∧ c.toNat ≤ 122
  · apply toUpper_eq_of_not_lower
    rw [toUpper_toNat_of_lower h.1 h.2]
    omega
  · rw [toUpper_eq_of_not_lower h, toUpper_eq_of_not_lower h]

theorem toUpper_ne_low {c d : Char} (hd : d.toNat < 65) (h : c ≠ d) : c.toUpper ≠ d := by
  by_cases hc : 97 ≤ c.toNat ∧ c.toNat ≤ 122
  · intro he
    have ht := toUpper_toNat_of_lower hc.1 hc.2
    rw [he] at ht
    omega
  · rw [toUpper_eq_of_not_lower hc]
    exact h

theorem hexDigitChar_upperHex {n : Nat} (h : n < 16) : isUpperHexChar (hexDigitChar n) := by
  unfold hexDigitChar
  by_cases h10 : n < 10
  · rw [if_pos h10]
    left
    rw [charOfNat_toNat (by omega)]
    omega
  · rw [if_neg h10]
    right
    rw [charOfNat_toNat (by omega)]
    omega

theorem byteToHex_upperHex {b : Nat} (h : b < 256) : ∀ c ∈ byteToHex b, isUpperHexChar c := by
  intro c hc
  unfold byteToHex at hc
  simp only [List.mem_cons, List.not_mem_nil, or_false] at hc
  rcases hc with rfl | rfl
  · exact hexDigitChar_upperHex (by omega)
  · exact hexDigitChar_upperHex (Nat.mod_lt _ (by omega))

theorem upperHex_not_whitespace {c : Char} (h : isUpperHexChar c) :
    isRustWhitespace c = false := by
  unfold isRustWhitespace
  rcases h with h | h <;> simp <;> omega

theorem upperHex_ne_comma {c : Char} (h : isUpperHexChar c) : c ≠ ',' := by
  apply char_ne_of_toNat_ne
  have : (',').toNat = 44 := by decide
  rw [this]
  rcases h with h | h <;> omega

theorem upperHex_ne_caret {c : Char} (h : isUpperHexChar c) : c ≠ '^' := by
  apply char_ne_of_toNat_ne
  have : ('^').toNat = 94 := by decide
  rw [this]
  rcases h with h | h <;> omega

/-! ## Digit-rendering facts -/

theorem natDigitsAux_bounds {fuel : Nat} : ∀ {n : Nat}, n < fuel →
    ∀ c ∈ natDigitsAux fuel n, 48 ≤ c.toNat ∧ c.toNat ≤ 57 := by
  induction fuel with
  | zero => omega
  | succ fuel ih =>
    intro n hn c hc
    rw [natDigitsAux] at hc
    by_cases h10 : n < 10
    · rw [if_pos h10] at hc
      simp only [List.mem_singleton] at hc
      subst hc
      rw [charOfNat_toNat (by omega)]
      omega
    · rw [if_neg h10] at hc
      rcases List.mem_append.mp hc with h1 | h1
      · have hdiv : n / 10 < fuel := by
          have := Nat.div_lt_self (by omega : 0 < n) (by omega : 1 < 10)
          omega
        exact ih hdiv c h1
      · simp only [List.mem_singleton] at h1
        subst h1
        rw [charOfNat_toNat (by
          have := Nat.mod_lt n (by omega : 0 < 10)
          omega)]
        have := Nat.mod_lt n (by omega : 0 < 10)
        omega

theorem natDigits_bounds (n : Nat) : ∀ c ∈ natDigits n, 48 ≤ c.toNat ∧ c.toNat ≤ 57 :=
  natDigitsAux_bounds (Nat.lt_succ_self n)

theorem natDigitsAux_ne_nil {fuel n : Nat} (h : n < fuel) : natDigitsAux fuel n ≠ [] := by
  cases fuel with
  | zero => omega
  | succ fuel =>
    rw [natDigitsAux]
    by_cases h10 : n < 10
    · rw [if_pos h10]
      exact List.cons_ne_nil _ _
    · rw [if_neg h10]
      exact List.append_ne_nil_of_right_ne_nil _ (List.cons_ne_nil _ _)

theorem natDigits_ne_nil (n : Nat) : natDigits n ≠ [] :=
  natDigitsAux_ne_nil (Nat.lt_succ_self n)

theorem natDigitsAux_foldl {fuel : Nat} : ∀ {n : Nat}, n < fuel → ∀ a : Nat,
    (natDigitsAux fuel n).foldl (fun a c => a * 10 + (c.toNat - 48)) a =
      a * 10 ^ (natDigitsAux fuel n).length + n := by
  induction fuel with
  | zero => omega
  | succ fuel ih =>
    intro n hn a
    rw [natDigitsAux]
    by_cases h10 : n < 10
    · rw [if_pos h10]
      simp only [List.foldl, List.length_cons, List.length_nil, Nat.zero_add, Nat.pow_one]
      rw [charOfNat_toNat (show 48 + n < 55296 by omega)]
      omega
    · rw [if_neg h10]
      have hdiv : n / 10 < fuel := by
        have := Nat.div_lt_self (by omega : 0 < n) (by omega : 1 < 10)
        omega
      rw [List.foldl_append, ih hdiv a]
      simp only [List.foldl, List.length_append, List.length_cons, List.length_nil,
        Nat.zero_add]
      rw [charOfNat_toNat (show 48 + n % 10 < 55296 by
        have := Nat.mod_lt n (by omega : 0 < 10)
        omega)]
      rw [Nat.pow_succ, ← Nat.mul_assoc]
      omega

theorem stripPlus_eq_self {l : List Char} (h : ∀ c ∈ l, c ≠ '+') : stripPlus l = l := by
  cases l with
  | nil => rfl
  | cons c rest =>
    have hc : c ≠ '+' := h c (List.mem_cons_self c rest)
    unfold stripPlus
    split
    · rename_i heq
      cases heq
      exact absurd rfl hc
    · rfl

theorem parseU32_natDigits {n : Nat} (h : n < 4294967296) : parseU32 (natDigits n) = some n := by
  have hb := natDigits_bounds n
  have hne := natDigits_ne_nil n
  unfold parseU32
  rw [stripPlus_eq_self (fun c hc => by
    apply char_ne_of_toNat_ne
    have : ('+').toNat = 43 := by decide
    rw [this]
    have := hb c hc
    omega)]
  rw [if_neg (by simpa [List.isEmpty_iff] using hne)]
  rw [if_pos (by
    rw [List.all_eq_true]
    intro c hc
    unfold isDecDigit
    exact decide_eq_true (hb c hc))]
  have hfold := natDigitsAux_foldl (Nat.lt_succ_self n) 0
  unfold natDigits
  rw [hfold]
  simp [h]

/-! ## Split, trim and find facts -/

theorem dropWhile_eq_self_of {p : Char → Bool} {l : List Char} (h : ∀ c ∈ l, p c = false) :
    l.dropWhile p = l := by
  cases l with
  | nil => rfl
  | cons c rest =>
    rw [List.dropWhile_cons, if_neg]
    rw [h c (List.mem_cons_self c rest)]
    exact Bool.false_ne_true

theorem trimChars_eq_self {l : List Char} (h : ∀ c ∈ l, isRustWhitespace c = false) :
    trimChars l = l := by
  unfold trimChars
  rw [dropWhile_eq_self_of h]
  rw [dropWhile_eq_self_of (fun c hc => h c (List.mem_reverse.mp hc))]
  exact List.reverse_reverse l

theorem splitOnP_ne_nil (p : Char → Bool) (l : List Char) : splitOnP p l ≠ [] := by
  cases l with
  | nil => simp [splitOnP]
  | cons c rest =>
    rw [splitOnP]
    by_cases hc : p c
    · rw [if_pos hc]
      exact List.cons_ne_nil _ _
    · rw [if_neg hc]
      split
      · exact List.cons_ne_nil _ _
      · exact List.cons_ne_nil _ _

theorem splitOnP_no_sep {p : Char → Bool} {l : List Char} (h : ∀ c ∈ l, p c = false) :
    splitOnP p l = [l] := by
  induction l with
  | nil => rfl
  | cons c rest ih =>
    rw [splitOnP, if_neg (by
      rw [h c (List.mem_cons_self c rest)]
      exact Bool.false_ne_true)]
    rw [ih (fun a ha => h a (List.mem_cons_of_mem c ha))]

theorem splitOnP_append_sep {p : Char → Bool} {l1 l2 : List Char} {c : Char}
    (hc : p c = true) (h1 : ∀ a ∈ l1, p a = false) :
    splitOnP p (l1 ++ c :: l2) = l1 :: splitOnP p l2 := by
  induction l1 with
  | nil =>
    rw [List.nil_append, splitOnP, if_pos hc]
  | cons a l1 ih =>
    rw [List.cons_append, splitOnP, if_neg (by
      rw [h1 a (List.mem_cons_self a l1)]
      exact Bool.false_ne_true)]
    rw [ih (fun x hx => h1 x (List.mem_cons_of_mem a hx))]

theorem splitWhitespaceChars_flatten {l : List Char}
    (h : ∀ c ∈ l, isRustWhitespace c = false) : (splitWhitespaceChars l).flatten = l := by
  unfold splitWhitespaceChars
  rw [splitOnP_no_sep h]
  by_cases hl : l = []
  · subst hl
    rfl
  · rw [List.filter_cons, if_pos (by
      simp [List.isEmpty_iff, hl])]
    simp

theorem findSubIdx_of_prefix {pat l : List Char} (h : pat.isPrefixOf l = true) :
    findSubIdx pat l = some 0 := by
  cases l with
  | nil => rw [findSubIdx, if_pos h]
  | cons c rest => rw [findSubIdx, if_pos h]

/-! ## Normalization facts -/

theorem mem_clean_data {a : Char} {l : List Char} (h : a ∈ clean_data l) :
    ∃ b ∈ l, a = b.toUpper ∧ b ≠ ',' ∧ b ≠ ' ' ∧ b ≠ '\n' ∧ b ≠ '\r' := by
  unfold clean_data at h
  rcases List.mem_map.mp h with ⟨b, hb, rfl⟩
  rcases List.mem_filter.mp hb with ⟨hb3, p4⟩
  rcases List.mem_filter.mp hb3 with ⟨hb2, p3⟩
  rcases List.mem_filter.mp hb2 with ⟨hb1, p2⟩
  rcases List.mem_filter.mp hb1 with ⟨hbl, p1⟩
  refine ⟨b, hbl, rfl, ?_, ?_, ?_, ?_⟩ <;> simp_all

theorem clean_data_eq_self {l : List Char}
    (h : ∀ c ∈ l, c ≠ ',' ∧ c ≠ ' ' ∧ c ≠ '\n' ∧ c ≠ '\r' ∧ c.toUpper = c) :
    clean_data l = l := by
  unfold clean_data
  have e1 : List.filter (fun c => c != ',') l = l :=
    List.filter_eq_self.mpr (fun a ha => by simp [(h a ha).1])
  rw [e1]
  have e2 : List.filter (fun c => c != ' ') l = l :=
    List.filter_eq_self.mpr (fun a ha => by simp [(h a ha).2.1])
  rw [e2]
  have e3 : List.filter (fun c => c != '\n') l = l :=
    List.filter_eq_self.mpr (fun a ha => by simp [(h a ha).2.2.1])
  rw [e3]
  have e4 : List.filter (fun c => c != '\r') l = l :=
    List.filter_eq_self.mpr (fun a ha => by simp [(h a ha).2.2.2.1])
  rw [e4]
  calc l.map Char.toUpper = l.map id := List.map_congr_left (fun a ha => (h a ha).2.2.2.2)
    _ = l := List.map_id l

theorem upperHex_clean_data_eq_self {l : List Char} (h : ∀ c ∈ l, isUpperHexChar c) :
    clean_data l = l := by
  apply clean_data_eq_self
  intro c hc
  have hx := h c hc
  refine ⟨upperHex_ne_comma hx, ?_, ?_, ?_, ?_⟩
  · apply char_ne_of_toNat_ne
    have : (' ').toNat = 32 := by decide
    rw [this]
    rcases hx with hx | hx <;> omega
  · apply char_ne_of_toNat_ne
    have : ('\n').toNat = 10 := by decide
    rw [this]
    rcases hx with hx | hx <;> omega
  · apply char_ne_of_toNat_ne
    have : ('\r').toNat = 13 := by decide
    rw [this]
    rcases hx with hx | hx <;> omega
  · apply toUpper_eq_of_not_lower
    rcases hx with hx | hx <;> omega

/-! ## Raster payload facts -/

theorem getD_lt_of_all_lt {l : List Nat} {i : Nat} (h : ∀ b ∈ l, b < 256) :
    l.getD i 0 < 256 := by
  rcases Nat.lt_or_ge i l.length with hi | hi
  · rw [List.getD_eq_getElem l 0 hi]
    exact h _ (List.getElem_mem hi)
  · rw [List.getD_eq_default l 0 hi]
    omega

theorem rowBytes_lt (image : DynamicImage) (threshold y : Nat) :
    ∀ b ∈ rowBytes image threshold y, b < 256 := by
  unfold rowBytes
  generalize (List.range image.width) = xs
  have hinit : ∀ b ∈ List.replicate (((image.width + 7) % 4294967296) / 8) (0 : Nat),
      b < 256 := by
    intro b hb
    rw [(List.eq_of_mem_replicate hb)]
    omega
  generalize List.replicate (((image.width + 7) % 4294967296) / 8) (0 : Nat) = init at hinit
  induction xs generalizing init with
  | nil => exact hinit
  | cons x xs ih =>
    rw [List.foldl_cons]
    apply ih
    intro b hb
    by_cases hg : rgb_to_grayscale (image.pixel x y) < threshold
    · rw [if_pos hg] at hb
      rcases List.mem_or_eq_of_mem_set hb with hmem | rfl
      · exact hinit b hmem
      · have h1 : init.getD (x / 8) 0 < 256 := getD_lt_of_all_lt hinit
        have h2 : (1 : Nat) <<< (7 - x % 8) < 256 := by
          rw [Nat.one_shiftLeft]
          calc 2 ^ (7 - x % 8) ≤ 2 ^ 7 := Nat.pow_le_pow_right (by omega) (by omega)
            _ < 256 := by omega
        have h3 : init.getD (x / 8) 0 ||| (1 : Nat) <<< (7 - x % 8) < 2 ^ 8 :=
          Nat.or_lt_two_pow (by omega) (by omega)
        omega
    · rw [if_neg hg] at hb
      exact hinit b hb

theorem image_to_zpl_hex_upperHex (image : DynamicImage) (threshold : Nat) :
    ∀ c ∈ image_to_zpl_hex image threshold, isUpperHexChar c := by
  intro c hc
  unfold image_to_zpl_hex at hc
  rcases List.mem_flatten.mp hc with ⟨row, hrow, hcrow⟩
  rcases List.mem_map.mp hrow with ⟨y, _, rfl⟩
  rcases List.mem_flatten.mp hcrow with ⟨hx, hhx, hchx⟩
  rcases List.mem_map.mp hhx with ⟨b, hb, rfl⟩
  exact byteToHex_upperHex (rowBytes_lt image threshold y b hb) c hchx

/-! ## Decoding a serialized graphic field -/

theorem gfaData_serialized {R : List Char} (hR : ∀ x ∈ R, x ≠ '^') :
    gfaData (['^', 'G', 'F', 'A', ','] ++ R) = some R := by
  unfold gfaData
  have hfind : findSubIdx (str "^GF") ((['^', 'G', 'F', 'A', ','] ++ R).map Char.toUpper) =
      some 0 := by
    rw [List.map_append]
    rw [show ['^', 'G', 'F', 'A', ','].map Char.toUpper = ['^', 'G', 'F', 'A', ','] from by
      decide]
    apply findSubIdx_of_prefix
    rw [List.isPrefixOf_iff_prefix]
    exact ⟨['A', ','] ++ R.map Char.toUpper, rfl⟩
  rw [hfind]
  dsimp only
  have hpre : (str "A,").isPrefixOf ((['^', 'G', 'F', 'A', ','] ++ R).drop (0 + 3)) = true := by
    rw [show (['^', 'G', 'F', 'A', ','] ++ R).drop (0 + 3) = 'A' :: ',' :: R from rfl]
    rw [List.isPrefixOf_iff_prefix]
    exact ⟨R, rfl⟩
  rw [if_pos (by rw [hpre]; exact Bool.true_or _)]
  have hnone : (((['^', 'G', 'F', 'A', ','] ++ R).drop (0 + 5)).findIdx?
      (fun c => c == '^')) = none := by
    rw [show (['^', 'G', 'F', 'A', ','] ++ R).drop (0 + 5) = R from rfl]
    rw [List.findIdx?_eq_none_iff]
    intro x hx
    simp [hR x hx]
  rw [hnone]
  rw [show (['^', 'G', 'F', 'A', ','] ++ R).drop (0 + 5) = R from rfl]
  simp

theorem digit_ne_comma {c : Char} (h : 48 ≤ c.toNat ∧ c.toNat ≤ 57) : (c == ',') = false := by
  have : c ≠ ',' := by
    apply char_ne_of_toNat_ne
    have h44 : (',').toNat = 44 := by decide
    rw [h44]
    omega
  simp [this]

theorem digit_not_whitespace {c : Char} (h : 48 ≤ c.toNat ∧ c.toNat ≤ 57) :
    isRustWhitespace c = false := by
  unfold isRustWhitespace
  simp
  omega

theorem parseGfaParts_serialized {tot bpr : Nat} {P : List Char}
    (htot : tot < 4294967296) (hbpr : bpr < 4294967296)
    (hP : ∀ c ∈ P, isUpperHexChar c) :
    parseGfaParts (natDigits tot ++ ',' :: (natDigits tot ++ ',' ::
      (natDigits bpr ++ ',' :: P))) =
    some ((bpr * 8) % 4294967296, if bpr > 0 then tot / bpr else 0, P) := by
  have hdt : ∀ a ∈ natDigits tot, ((fun c => c == ',') a) = false :=
    fun a ha => digit_ne_comma (natDigits_bounds tot a ha)
  have hdb : ∀ a ∈ natDigits bpr, ((fun c => c == ',') a) = false :=
    fun a ha => digit_ne_comma (natDigits_bounds bpr a ha)
  have hPc : ∀ a ∈ P, ((fun c => c == ',') a) = false := by
    intro a ha
    simp [upperHex_ne_comma (hP a ha)]
  have hsplit : splitOnChar ',' (natDigits tot ++ ',' :: (natDigits tot ++ ',' ::
      (natDigits bpr ++ ',' :: P))) =
      [natDigits tot, natDigits tot, natDigits bpr, P] := by
    unfold splitOnChar
    rw [splitOnP_append_sep (by decide) hdt, splitOnP_append_sep (by decide) hdt,
      splitOnP_append_sep (by decide) hdb, splitOnP_no_sep hPc]
  unfold parseGfaParts
  rw [hsplit]
  rw [if_pos (by simp)]
  have htrim_t : trimChars ([natDigits tot, natDigits tot, natDigits bpr, P].getD 0 []) =
      natDigits tot :=
    trimChars_eq_self (fun c hc => digit_not_whitespace (natDigits_bounds tot c hc))
  have htrim_b : trimChars ([natDigits tot, natDigits tot, natDigits bpr, P].getD 2 []) =
      natDigits bpr :=
    trimChars_eq_self (fun c hc => digit_not_whitespace (natDigits_bounds bpr c hc))
  rw [htrim_t, htrim_b, parseU32_natDigits htot, parseU32_natDigits hbpr]
  have hhex : clean_data ((([natDigits tot, natDigits tot, natDigits bpr, P].drop 3).map
      splitWhitespaceChars).flatten).flatten = P := by
    rw [show [natDigits tot, natDigits tot, natDigits bpr, P].drop 3 = [P] from rfl]
    rw [show ([P].map splitWhitespaceChars).flatten = splitWhitespaceChars P by simp]
    rw [splitWhitespaceChars_flatten (fun c hc => upperHex_not_whitespace (hP c hc))]
    exact upperHex_clean_data_eq_self hP
  rw [hhex]

theorem parse_serialized_gfa {tot bpr : Nat} {P : List Char}
    (htot : tot < 4294967296) (hbpr : bpr < 4294967296)
    (hP : ∀ c ∈ P, isUpperHexChar c) :
    parse_graphic_field_from_zpl (['^', 'G', 'F', 'A', ','] ++ (natDigits tot ++ ',' ::
      (natDigits tot ++ ',' :: (natDigits bpr ++ ',' :: P)))) =
    some ((bpr * 8) % 4294967296, if bpr > 0 then tot / bpr else 0, P) := by
  have hR : ∀ x ∈ natDigits tot ++ ',' :: (natDigits tot ++ ',' ::
      (natDigits bpr ++ ',' :: P)), x ≠ '^' := by
    intro x hx
    simp only [List.mem_append, List.mem_cons] at hx
    have hcaret : (',').toNat = 44 := by decide
    rcases hx with h1 | rfl | h1 | rfl | h1 | rfl | h1
    · have := natDigits_bounds tot x h1
      apply char_ne_of_toNat_ne
      rw [show ('^').toNat = 94 from by decide]
      omega
    · apply char_ne_of_toNat_ne
      rw [show ('^').toNat = 94 from by decide, hcaret]
      omega
    · have := natDigits_bounds tot x h1
      apply char_ne_of_toNat_ne
      rw [show ('^').toNat = 94 from by decide]
      omega
    · apply char_ne_of_toNat_ne
      rw [show ('^').toNat = 94 from by decide, hcaret]
      omega
    · have := natDigits_bounds bpr x h1
      apply char_ne_of_toNat_ne
      rw [show ('^').toNat = 94 from by decide]
      omega
    · apply char_ne_of_toNat_ne
      rw [show ('^').toNat = 94 from by decide, hcaret]
      omega
    · exact upperHex_ne_caret (hP x h1)
  unfold parse_graphic_field_from_zpl
  rw [gfaData_serialized hR]
  exact parseGfaParts_serialized htot hbpr hP

/-! ## Status parser facts -/

theorem parseStatusLines_no_labels : ∀ {ls : List (List Char)} (e : ErrorFlags)
    (w : WarningFlags), (∀ l ∈ ls, isErrorsLine l = false) →
    (∀ l ∈ ls, isWarningsLine l = false) → parseStatusLines ls e w = .ok ⟨e, w⟩ := by
  intro ls
  induction ls with
  | nil => intro e w _ _; rfl
  | cons l rest ih =>
    intro e w hE hW
    have hEl : ((str "ERRORS:").isPrefixOf (trimChars l)) = false := by
      have := hE l (List.mem_cons_self l rest)
      unfold isErrorsLine at this
      exact this
    have hWl : ((str "WARNINGS:").isPrefixOf (trimChars l)) = false := by
      have := hW l (List.mem_cons_self l rest)
      unfold isWarningsLine at this
      exact this
    rw [parseStatusLines]
    dsimp only
    rw [if_neg (by rw [hEl]; exact Bool.false_ne_true),
      if_neg (by rw [hWl]; exact Bool.false_ne_true)]
    exact ih e w (fun x hx => hE x (List.mem_cons_of_mem l hx))
      (fun x hx => hW x (List.mem_cons_of_mem l hx))

theorem parseStatusLines_error_iff : ∀ {ls : List (List Char)} (e : ErrorFlags)
    (w : WarningFlags),
    (∃ msg, parseStatusLines ls e w = .error msg) ↔ ∃ l ∈ ls, statusBadLine l := by
  intro ls
  induction ls with
  | nil =>
    intro e w
    constructor
    · rintro ⟨msg, h⟩
      rw [parseStatusLines] at h
      cases h
    · rintro ⟨l, hl, _⟩
      cases hl
  | cons l rest ih =>
    intro e w
    rw [parseStatusLines]
    dsimp only
    by_cases hE : ((str "ERRORS:").isPrefixOf (trimChars l)) = true
    · rw [if_pos hE]
      by_cases h4 : 4 ≤ (splitWhitespaceChars (trimChars l)).length
      · rw [if_pos h4]
        cases hhex : fromStrRadix16 ((splitWhitespaceChars (trimChars l)).getD 3 []) with
        | none =>
          constructor
          · intro _
            exact ⟨l, List.mem_cons_self l rest, Or.inl hE, h4, hhex⟩
          · intro _
            exact ⟨_, rfl⟩
        | some v =>
          rw [ih]
          constructor
          · rintro ⟨x, hx, hbad⟩
            exact ⟨x, List.mem_cons_of_mem l hx, hbad⟩
          · rintro ⟨x, hx, hbad⟩
            rcases List.mem_cons.mp hx with rfl | hx2
            · rw [hbad.2.2] at hhex
              cases hhex
            · exact ⟨x, hx2, hbad⟩
      · rw [if_neg h4, ih]
        constructor
        · rintro ⟨x, hx, hbad⟩
          exact ⟨x, List.mem_cons_of_mem l hx, hbad⟩
        · rintro ⟨x, hx, hbad⟩
          rcases List.mem_cons.mp hx with rfl | hx2
          · exact absurd hbad.2.1 h4
          · exact ⟨x, hx2, hbad⟩
    · rw [if_neg hE]
      by_cases hW : ((str "WARNINGS:").isPrefixOf (trimChars l)) = true
      · rw [if_pos hW]
        by_cases h4 : 4 ≤ (splitWhitespaceChars (trimChars l)).length
        · rw [if_pos h4]
          cases hhex : fromStrRadix16 ((splitWhitespaceChars (trimChars l)).getD 3 []) with
          | none =>
            constructor
            · intro _
              exact ⟨l, List.mem_cons_self l rest, Or.inr hW, h4, hhex⟩
            · intro _
              exact ⟨_, rfl⟩
          | some v =>
            rw [ih]
            constructor
            · rintro ⟨x, hx, hbad⟩
              exact ⟨x, List.mem_cons_of_mem l hx, hbad⟩
            · rintro ⟨x, hx, hbad⟩
              rcases List.mem_cons.mp hx with rfl | hx2
              · rw [hbad.2.2] at hhex
                cases hhex
              · exact ⟨x, hx2, hbad⟩
        · rw [if_neg h4, ih]
          constructor
          · rintro ⟨x, hx, hbad⟩
            exact ⟨x, List.mem_cons_of_mem l hx, hbad⟩
          · rintro ⟨x, hx, hbad⟩
            rcases List.mem_cons.mp hx with rfl | hx2
            · exact absurd hbad.2.1 h4
            · exact ⟨x, hx2, hbad⟩
      · rw [if_neg hW, ih]
        constructor
        · rintro ⟨x, hx, hbad⟩
          exact ⟨x, List.mem_cons_of_mem l hx, hbad⟩
        · rintro ⟨x, hx, hbad⟩
          rcases List.mem_cons.mp hx with rfl | hx2
          · rcases hbad.1 with h1 | h1
            · exact absurd h1 hE
            · exact absurd h1 hW
          · exact ⟨x, hx2, hbad⟩

theorem parseStatusLines_errors_of_no_errors_label : ∀ {ls : List (List Char)}
    (e : ErrorFlags) (w : WarningFlags) (st : PrinterStatus),
    (∀ l ∈ ls, isErrorsLine l = false) → parseStatusLines ls e w = .ok st →
    st.errors = e := by
  intro ls
  induction ls with
  | nil =>
    intro e w st _ h
    rw [parseStatusLines] at h
    cases h
    rfl
  | cons l rest ih =>
    intro e w st hE h
    have hEl : ((str "ERRORS:").isPrefixOf (trimChars l)) = false := by
      have := hE l (List.mem_cons_self l rest)
      unfold isErrorsLine at this
      exact this
    rw [parseStatusLines] at h
    dsimp only at h
    rw [if_neg (by rw [hEl]; exact Bool.false_ne_true)] at h
    by_cases hW : ((str "WARNINGS:").isPrefixOf (trimChars l)) = true
    · rw [if_pos hW] at h
      by_cases h4 : 4 ≤ (splitWhitespaceChars (trimChars l)).length
      · rw [if_pos h4] at h
        cases hhex : fromStrRadix16 ((splitWhitespaceChars (trimChars l)).getD 3 []) with
        | none =>
          rw [hhex] at h
          cases h
        | some v =>
          rw [hhex] at h
          exact ih e _ st (fun x hx => hE x (List.mem_cons_of_mem l hx)) h
      · rw [if_neg h4] at h
        exact ih e w st (fun x hx => hE x (List.mem_cons_of_mem l hx)) h
    · rw [if_neg hW] at h
      exact ih e w st (fun x hx => hE x (List.mem_cons_of_mem l hx)) h

theorem parseStatusLines_warnings_of_no_warnings_label : ∀ {ls : List (List Char)}
    (e : ErrorFlags) (w : WarningFlags) (st : PrinterStatus),
    (∀ l ∈ ls, isWarningsLine l = false) → parseStatusLines ls e w = .ok st →
    st.warnings = w := by
  intro ls
  induction ls with
  | nil =>
    intro e w st _ h
    rw [parseStatusLines] at h
    cases h
    rfl
  | cons l rest ih =>
    intro e w st hW h
    have hWl : ((str "WARNINGS:").isPrefixOf (trimChars l)) = false := by
      have := hW l (List.mem_cons_self l rest)
      unfold isWarningsLine at this
      exact this
    rw [parseStatusLines] at h
    dsimp only at h
    by_cases hE : ((str "ERRORS:").isPrefixOf (trimChars l)) = true
    · rw [if_pos hE] at h
      by_cases h4 : 4 ≤ (splitWhitespaceChars (trimChars l)).length
      · rw [if_pos h4] at h
        cases hhex : fromStrRadix16 ((splitWhitespaceChars (trimChars l)).getD 3 []) with
        | none =>
          rw [hhex] at h
          cases h
        | some v =>
          rw [hhex] at h
          exact ih _ w st (fun x hx => hW x (List.mem_cons_of_mem l hx)) h
      · rw [if_neg h4] at h
        exact ih e w st (fun x hx => hW x (List.mem_cons_of_mem l hx)) h
    · rw [if_neg hE, if_neg (by rw [hWl]; exact Bool.false_ne_true)] at h
      exact ih e w st (fun x hx => hW x (List.mem_cons_of_mem l hx)) h

theorem mem_of_getLast?_eq_some {l : List Char} {a : Char} (h : l.getLast? = some a) :
    a ∈ l := by
  rw [List.getLast?_eq_getElem?] at h
  rcases List.getElem?_eq_some_iff.mp h with ⟨hlt, he⟩
  exact he ▸ List.getElem_mem hlt

theorem linesChars_single {l : List Char} (hne : l ≠ []) (hn : '\n' ∉ l) (hr : '\r' ∉ l) :
    linesChars l = [l] := by
  unfold linesChars
  have hsplit : splitOnChar '\n' l = [l] := by
    unfold splitOnChar
    apply splitOnP_no_sep
    intro c hc
    simp only [beq_eq_false_iff_ne]
    intro he
    exact hn (he ▸ hc)
  rw [hsplit]
  dsimp only
  rw [if_neg (by simp [hne])]
  have hcr : stripTrailingCR l = l := by
    unfold stripTrailingCR
    rw [if_neg]
    intro he
    exact hr (mem_of_getLast?_eq_some he)
  simp [hcr]

theorem parseStatusLines_single_errors : ∀ {ls : List (List Char)} (e : ErrorFlags)
    (w : WarningFlags) {l0 : List Char} {v : Nat},
    ls.filter isErrorsLine = [l0] → (∀ l ∈ ls, isWarningsLine l = false) →
    4 ≤ (splitWhitespaceChars (trimChars l0)).length →
    fromStrRadix16 ((splitWhitespaceChars (trimChars l0)).getD 3 []) = some v →
    parseStatusLines ls e w = .ok ⟨ErrorFlags.from_hex v, w⟩ := by
  intro ls
  induction ls with
  | nil =>
    intro e w l0 v hfilter _ _ _
    rw [List.filter_nil] at hfilter
    cases hfilter
  | cons l rest ih =>
    intro e w l0 v hfilter hW h4 hhex
    rw [parseStatusLines]
    dsimp only
    have hWl : ((str "WARNINGS:").isPrefixOf (trimChars l)) = false := by
      have := hW l (List.mem_cons_self l rest)
      unfold isWarningsLine at this
      exact this
    by_cases hEl : isErrorsLine l = true
    · rw [List.filter_cons_of_pos hEl] at hfilter
      obtain ⟨hl0, hrest⟩ : l = l0 ∧ rest.filter isErrorsLine = [] := by
        injection hfilter with h1 h2
        exact ⟨h1, h2⟩
      subst hl0
      have hEl2 : ((str "ERRORS:").isPrefixOf (trimChars l)) = true := by
        unfold isErrorsLine at hEl
        exact hEl
      rw [if_pos hEl2, if_pos h4, hhex]
      exact parseStatusLines_no_labels _ _
        (fun x hx => by
          have := List.filter_eq_nil_iff.mp hrest x hx
          simp only [Bool.not_eq_true] at this
          exact this)
        (fun x hx => hW x (List.mem_cons_of_mem l hx))
    · rw [List.filter_cons_of_neg hEl] at hfilter
      have hEl2 : ((str "ERRORS:").isPrefixOf (trimChars l)) = false := by
        have hb : isErrorsLine l = false := by
          cases hb : isErrorsLine l
          · rfl
          · exact absurd hb hEl
        unfold isErrorsLine at hb
        exact hb
      rw [if_neg (by rw [hEl2]; exact Bool.false_ne_true),
        if_neg (by rw [hWl]; exact Bool.false_ne_true)]
      exact ih e w hfilter (fun x hx => hW x (List.mem_cons_of_mem l hx)) h4 hhex

/-! ## Claim theorems -/

/-- C1 counterexample: the claim says decoding returns no result when the
bytes-per-row field is zero and when any numeric header field fails to
parse. On the code, a zero bytes-per-row input decodes to a result with
width 0 and height 0, and a malformed second header field (the repeated
total, which the code never parses) also decodes to a result. -/
theorem C1_counterexample :
    parse_graphic_field_from_zpl (str "^GFA,0,0,0,FF") = some (0, 0, str "FF") ∧
    parse_graphic_field_from_zpl (str "^GFA,8,XYZ,1,FF") = some (8, 8, str "FF") :=
  ⟨by decide, by decide⟩

/-- C1 amended: decoding returns no result when no GFA header is found,
when the header section has fewer than four comma-separated parts, or
when the first (total bytes) or third (bytes-per-row) field fails to
parse as u32; when the bytes-per-row field parses as zero the decoder
performs no division and returns a result with width 0 and height 0. -/
theorem C1_parse_graphic_field_failure_cases :
    (∀ zpl : List Char, gfaData zpl = none → parse_graphic_field_from_zpl zpl = none) ∧
    (∀ zpl d : List Char, gfaData zpl = some d → (splitOnChar ',' d).length < 4 →
      parse_graphic_field_from_zpl zpl = none) ∧
    (∀ zpl d : List Char, gfaData zpl = some d →
      parseU32 (trimChars ((splitOnChar ',' d).getD 0 [])) = none →
      parse_graphic_field_from_zpl zpl = none) ∧
    (∀ zpl d : List Char, gfaData zpl = some d →
      parseU32 (trimChars ((splitOnChar ',' d).getD 2 [])) = none →
      parse_graphic_field_from_zpl zpl = none) ∧
    (∀ (zpl d : List Char) (tot : Nat), gfaData zpl = some d →
      4 ≤ (splitOnChar ',' d).length →
      parseU32 (trimChars ((splitOnChar ',' d).getD 0 [])) = some tot →
      parseU32 (trimChars ((splitOnChar ',' d).getD 2 [])) = some 0 →
      ∃ hex, parse_graphic_field_from_zpl zpl = some (0, 0, hex)) := by
  refine ⟨?_, ?_, ?_, ?_, ?_⟩
  · intro zpl h
    unfold parse_graphic_field_from_zpl
    rw [h]
  · intro zpl d h hlen
    unfold parse_graphic_field_from_zpl
    rw [h]
    dsimp only
    unfold parseGfaParts
    rw [if_neg (by omega)]
  · intro zpl d h h0
    unfold parse_graphic_field_from_zpl
    rw [h]
    dsimp only
    unfold parseGfaParts
    by_cases hlen : 4 ≤ (splitOnChar ',' d).length
    · rw [if_pos hlen, h0]
    · rw [if_neg hlen]
  · intro zpl d h h2
    unfold parse_graphic_field_from_zpl
    rw [h]
    dsimp only
    unfold parseGfaParts
    by_cases hlen : 4 ≤ (splitOnChar ',' d).length
    · rw [if_pos hlen, h2]
      cases parseU32 (trimChars ((splitOnChar ',' d).getD 0 [])) <;> rfl
    · rw [if_neg hlen]
  · intro zpl d tot h hlen h0 h2
    unfold parse_graphic_field_from_zpl
    rw [h]
    dsimp only
    unfold parseGfaParts
    rw [if_pos hlen, h0, h2]
    refine ⟨clean_data ((((splitOnChar ',' d).drop 3).map splitWhitespaceChars).flatten).flatten,
      ?_⟩
    norm_num

/-- C1 witness: the failure cases and the zero bytes-per-row case of the
amended claim, exercised at concrete inputs. -/
theorem C1_witness :
    parse_graphic_field_from_zpl (str "no header here") = none ∧
    parse_graphic_field_from_zpl (str "^GFA,1,1") = none ∧
    parse_graphic_field_from_zpl (str "^GFA,x,0,1,FF") = none ∧
    parse_graphic_field_from_zpl (str "^GFA,1,1,y,FF") = none ∧
    ∃ hex, parse_graphic_field_from_zpl (str "^GFA,4,4,0,FF") = some (0, 0, hex) := by
  refine ⟨?_, ?_, ?_, ?_, ?_⟩
  · exact C1_parse_graphic_field_failure_cases.1 _ (by decide)
  · exact C1_parse_graphic_field_failure_cases.2.1 _ (str "1,1") (by decide) (by decide)
  · exact C1_parse_graphic_field_failure_cases.2.2.1 _ (str "x,0,1,FF") (by decide) (by decide)
  · exact C1_parse_graphic_field_failure_cases.2.2.2.1 _ (str "1,1,y,FF") (by decide) (by decide)
  · exact C1_parse_graphic_field_failure_cases.2.2.2.2 _ (str "4,4,0,FF") 4 (by decide)
      (by decide) (by decide) (by decide)

/-- C2 counterexample: a one-by-one bitmap serializes to a graphic field
whose decoding reports width 8, not the declared width 1, because the
decoder reconstructs the width from whole packed bytes. -/
theorem C2_counterexample :
    parse_graphic_field_from_zpl
      ((ZplCommand.graphicField img1x1.width img1x1.height
        (image_to_zpl_hex img1x1 128)).to_zpl_string) = some (8, 1, str "80") ∧
    img1x1.width = 1 ∧ (8 : Nat) ≠ 1 :=
  ⟨by decide, by decide, by decide⟩

/-- C2 amended: decoding the serialized graphic field command built from
the encoder recovers the declared width rounded up to a whole number of
bytes times eight, and the declared height (zero when the width is
zero); the recovered hex payload is byte-identical to the encoder
output. The declared width itself is recovered exactly only when it is a
positive multiple of eight. -/
theorem C2_graphic_field_round_trip (image : DynamicImage) (threshold : Nat)
    (h1 : image.width + 7 < 4294967296)
    (h2 : ((image.width + 7) / 8) * image.height < 4294967296) :
    parse_graphic_field_from_zpl
      ((ZplCommand.graphicField image.width image.height
        (image_to_zpl_hex image threshold)).to_zpl_string) =
    some (((image.width + 7) / 8) * 8,
      if image.width = 0 then 0 else image.height,
      image_to_zpl_hex image threshold) := by
  have hPx : ∀ c ∈ image_to_zpl_hex image threshold, isUpperHexChar c :=
    image_to_zpl_hex_upperHex image threshold
  have hclean : clean_data (image_to_zpl_hex image threshold) =
      image_to_zpl_hex image threshold := upperHex_clean_data_eq_self hPx
  have hbpr_le : (image.width + 7) / 8 < 4294967296 :=
    Nat.lt_of_le_of_lt (Nat.div_le_self _ _) h1
  have hser : (ZplCommand.graphicField image.width image.height
      (image_to_zpl_hex image threshold)).to_zpl_string =
      ['^', 'G', 'F', 'A', ','] ++
        (natDigits (((image.width + 7) / 8) * image.height) ++ ',' ::
          (natDigits (((image.width + 7) / 8) * image.height) ++ ',' ::
            (natDigits ((image.width + 7) / 8) ++ ',' ::
              image_to_zpl_hex image threshold))) := by
    show str "^GFA," ++
        natDigits ((((image.width + 7) % 4294967296) / 8 * image.height) % 4294967296) ++
        str "," ++
        natDigits ((((image.width + 7) % 4294967296) / 8 * image.height) % 4294967296) ++
        str "," ++ natDigits (((image.width + 7) % 4294967296) / 8) ++ str "," ++
        clean_data (image_to_zpl_hex image threshold) = _
    rw [Nat.mod_eq_of_lt h1, Nat.mod_eq_of_lt h2, hclean]
    rw [show str "^GFA," = ['^', 'G', 'F', 'A', ','] from rfl,
      show str "," = [','] from rfl]
    simp [List.append_assoc]
  rw [hser, parse_serialized_gfa h2 hbpr_le hPx]
  have hw8 : ((image.width + 7) / 8) * 8 < 4294967296 :=
    Nat.lt_of_le_of_lt (Nat.div_mul_le_self _ _) h1
  rw [Nat.mod_eq_of_lt hw8]
  by_cases hw : image.width = 0
  · rw [hw]
    norm_num
  · have hbpr_pos : 0 < (image.width + 7) / 8 :=
      Nat.div_pos (by omega) (by omega)
    rw [if_pos hbpr_pos, if_neg hw, Nat.mul_div_cancel_left _ hbpr_pos]

/-- C2 witness: the amended round trip at a concrete eight-by-one white
bitmap, where the declared dimensions are recovered exactly. -/
theorem C2_witness :
    img8x1.width + 7 < 4294967296 ∧
    ((img8x1.width + 7) / 8) * img8x1.height < 4294967296 ∧
    parse_graphic_field_from_zpl
      ((ZplCommand.graphicField img8x1.width img8x1.height
        (image_to_zpl_hex img8x1 128)).to_zpl_string) =
      some (8, 1, image_to_zpl_hex img8x1 128) := by
  refine ⟨by decide, by decide, ?_⟩
  rw [C2_graphic_field_round_trip img8x1 128 (by decide) (by decide)]
  decide

/-- C3 counterexample: the claim says parse errors when a labeled line is
present with its fourth token absent. The response consisting of the
bare label line has an ERRORS: label with fewer than four tokens, yet
parse succeeds with empty flags. -/
theorem C3_counterexample :
    isErrorsLine (str "ERRORS:") = true ∧
    (splitWhitespaceChars (trimChars (str "ERRORS:"))).length < 4 ∧
    PrinterStatus.parse (str "ERRORS:") = .ok ⟨ErrorFlags.empty, WarningFlags.empty⟩ :=
  ⟨by decide, by decide, by decide⟩

/-- C3 amended: PrinterStatus::parse returns an error precisely when some
line carries the ERRORS: or WARNINGS: label, has at least four
whitespace-separated tokens, and its fourth token fails to parse as a
hexadecimal u32; a labeled line with fewer than four tokens is skipped,
and an absent label leaves the corresponding flag set empty. -/
theorem C3_status_parse_error_iff (resp : List Char) :
    ((∃ msg, PrinterStatus.parse resp = .error msg) ↔
      ∃ l ∈ linesChars resp, statusBadLine l) ∧
    (∀ st : PrinterStatus, PrinterStatus.parse resp = .ok st →
      ((∀ l ∈ linesChars resp, isErrorsLine l = false) → st.errors = ErrorFlags.empty) ∧
      ((∀ l ∈ linesChars resp, isWarningsLine l = false) →
        st.warnings = WarningFlags.empty)) := by
  refine ⟨parseStatusLines_error_iff _ _, ?_⟩
  intro st hok
  exact ⟨fun hE => parseStatusLines_errors_of_no_errors_label _ _ st hE hok,
    fun hW => parseStatusLines_warnings_of_no_warnings_label _ _ st hW hok⟩

/-- C3 witness: a malformed fourth token produces an error, and a
label-free response leaves the error flags empty, both obtained from the
amended theorem at concrete inputs. -/
theorem C3_witness :
    (∃ msg, PrinterStatus.parse (str "ERRORS: 1 0 ZZZ") = Except.error msg) ∧
    (⟨ErrorFlags.empty, WarningFlags.empty⟩ : PrinterStatus).errors = ErrorFlags.empty :=
  ⟨(C3_status_parse_error_iff (str "ERRORS: 1 0 ZZZ")).1.mpr
      ⟨str "ERRORS: 1 0 ZZZ", by decide, by decide⟩,
    ((C3_status_parse_error_iff (str "no labels")).2 ⟨ErrorFlags.empty, WarningFlags.empty⟩
      (by decide)).1 (by decide)⟩

/-- C4 counterexample: a response containing an ERRORS: line with fourth
token 00000005 and no WARNINGS: line, but also a later ERRORS: line with
token 00000002; the decoded flag set is 2, so bit 0x4 is not set and the
claimed flag set is not produced. -/
theorem C4_counterexample :
    (∃ l ∈ linesChars (str "ERRORS: a b 00000005\nERRORS: a b 00000002"),
      isErrorsLine l = true ∧
      (splitWhitespaceChars (trimChars l)).getD 3 [] = str "00000005") ∧
    (∀ l ∈ linesChars (str "ERRORS: a b 00000005\nERRORS: a b 00000002"),
      isWarningsLine l = false) ∧
    PrinterStatus.parse (str "ERRORS: a b 00000005\nERRORS: a b 00000002") =
      .ok ⟨ErrorFlags.from_hex 2, WarningFlags.empty⟩ ∧
    (ErrorFlags.from_hex 2).contains ErrorFlags.HEAD_OPEN = false :=
  ⟨by decide, by decide, by decide, by decide⟩

/-- C4 amended: when the unique ERRORS:-labeled line of the response has
at least four whitespace-separated tokens, its fourth token is 00000005,
and no WARNINGS: label occurs, parse yields the flag set with bits 0x1
and 0x4 set and nothing else, its descriptions are exactly the two fixed
entries in bit-ascending order, and the status is not ok. -/
theorem C4_status_decode_five (resp l0 : List Char)
    (hE : (linesChars resp).filter isErrorsLine = [l0])
    (hW : ∀ l ∈ linesChars resp, isWarningsLine l = false)
    (h4 : 4 ≤ (splitWhitespaceChars (trimChars l0)).length)
    (htok : (splitWhitespaceChars (trimChars l0)).getD 3 [] = str "00000005") :
    PrinterStatus.parse resp = .ok ⟨ErrorFlags.from_hex 5, WarningFlags.empty⟩ ∧
    (ErrorFlags.from_hex 5).contains ErrorFlags.MEDIA_OUT = true ∧
    (ErrorFlags.from_hex 5).contains ErrorFlags.HEAD_OPEN = true ∧
    (ErrorFlags.from_hex 5).bits = 5 ∧
    (ErrorFlags.from_hex 5).to_descriptions =
      [str "Media out or not loaded", str "Head open / Cover open"] ∧
    PrinterStatus.is_ok ⟨ErrorFlags.from_hex 5, WarningFlags.empty⟩ = false := by
  refine ⟨?_, by decide, by decide, by decide, by decide, by decide⟩
  have hhex : fromStrRadix16 ((splitWhitespaceChars (trimChars l0)).getD 3 []) = some 5 := by
    rw [htok]
    decide
  exact parseStatusLines_single_errors _ _ hE hW h4 hhex

/-- C4 witness: the amended decode at a concrete single ERRORS: line. -/
theorem C4_witness :
    PrinterStatus.parse (str "ERRORS: a b 00000005") =
      .ok ⟨ErrorFlags.from_hex 5, WarningFlags.empty⟩ :=
  (C4_status_decode_five (str "ERRORS: a b 00000005") (str "ERRORS: a b 00000005")
    (by decide) (by decide) (by decide) (by decide)).1

/-- C5: a response without ERRORS: or WARNINGS: labels parses to the
status with both flag sets empty, and is_ok holds exactly when both flag
sets are empty. -/
theorem C5_no_labels_and_is_ok :
    (∀ resp : List Char,
      (∀ l ∈ linesChars resp, isErrorsLine l = false ∧ isWarningsLine l = false) →
      PrinterStatus.parse resp = .ok ⟨ErrorFlags.empty, WarningFlags.empty⟩) ∧
    (∀ st : PrinterStatus, st.is_ok = true ↔
      st.errors.is_empty = true ∧ st.warnings.is_empty = true) := by
  constructor
  · intro resp h
    exact parseStatusLines_no_labels _ _ (fun l hl => (h l hl).1) (fun l hl => (h l hl).2)
  · intro st
    unfold PrinterStatus.is_ok
    exact iff_of_eq (Bool.and_eq_true _ _)

/-- C5 witness: the label-free decode at a concrete response, and the
is_ok equivalence at a concrete non-empty flag set. -/
theorem C5_witness :
    PrinterStatus.parse (str "hello\nworld") = .ok ⟨ErrorFlags.empty, WarningFlags.empty⟩ ∧
    (PrinterStatus.is_ok ⟨ErrorFlags.from_hex 5, WarningFlags.empty⟩ = true ↔
      (ErrorFlags.from_hex 5).is_empty = true ∧ WarningFlags.empty.is_empty = true) :=
  ⟨C5_no_labels_and_is_ok.1 _ (by decide),
    C5_no_labels_and_is_ok.2 ⟨ErrorFlags.from_hex 5, WarningFlags.empty⟩⟩

/-- C6: the hex-payload normalization of the raster serializer arms
(strip commas, spaces, newlines and carriage returns, then uppercase) is
idempotent. -/
theorem C6_clean_data_idempotent (H : List Char) : clean_data (clean_data H) = clean_data H := by
  apply clean_data_eq_self
  intro c hc
  rcases mem_clean_data hc with ⟨b, _, rfl, hb1, hb2, hb3, hb4⟩
  refine ⟨?_, ?_, ?_, ?_, toUpper_toUpper b⟩
  · exact toUpper_ne_low (by decide) hb1
  · exact toUpper_ne_low (by decide) hb2
  · exact toUpper_ne_low (by decide) hb3
  · exact toUpper_ne_low (by decide) hb4

/-- C7: parse_memory_status succeeds exactly when the first line splits
on commas into exactly three parts, each parsing as u32; the concrete
input yields the 1024, 768, 512 record, from which the batch aggregator
computes 256 KB used and 33 percent usage. -/
theorem C7_memory_status_spec :
    (∀ resp : List Char, (PrinterInfo.parse_memory_status resp).isSome = true ↔
      ∃ first, (linesChars resp).head? = some first ∧
        (splitOnChar ',' (trimChars first)).length = 3 ∧
        ∀ p ∈ splitOnChar ',' (trimChars first), (parseU32 (trimChars p)).isSome = true) ∧
    PrinterInfo.parse_memory_status (str "1024,768,512\n") = some ⟨1024, 768, 512⟩ ∧
    memoryUsedKb ⟨1024, 768, 512⟩ = 256 ∧
    memoryUsagePercent ⟨1024, 768, 512⟩ = 33 := by
  refine ⟨?_, by decide, by decide, by decide⟩
  intro resp
  unfold PrinterInfo.parse_memory_status
  cases hh : (linesChars resp).head? with
  | none => simp
  | some first =>
    dsimp only
    by_cases hlen : (splitOnChar ',' (trimChars first)).length = 3
    · obtain ⟨p0, p1, p2, hps⟩ := List.length_eq_three.mp hlen
      rw [if_pos hlen, hps]
      rcases e0 : parseU32 (trimChars p0) with _ | v0 <;>
        rcases e1 : parseU32 (trimChars p1) with _ | v1 <;>
          rcases e2 : parseU32 (trimChars p2) with _ | v2 <;>
            simp [hps, e0, e1, e2, List.mem_cons]
    · rw [if_neg hlen]
      simp [hlen]

/-- C7 witness: the success characterization instantiated at the claim's
concrete memory response. -/
theorem C7_witness :
    (PrinterInfo.parse_memory_status (str "1024,768,512\n")).isSome = true :=
  (C7_memory_status_spec.1 (str "1024,768,512\n")).mpr
    ⟨str "1024,768,512", by decide, by decide, by decide⟩

/-- C8: on a single-line response, a trimmed line of exactly twelve
ASCII hex digits is reformatted into colon-separated octet pairs, and a
same-length non-hex line that does not start with an angle bracket is
returned unchanged. -/
theorem C8_hardware_address (l : List Char) (hne : l ≠ []) (hn : '\n' ∉ l) (hr : '\r' ∉ l) :
    ((trimChars l).length = 12 → (trimChars l).all isAsciiHexDigit = true →
      PrinterInfo.parse_hardware_address l = some (formatMac (trimChars l))) ∧
    ((trimChars l).length = 12 → (trimChars l).all isAsciiHexDigit = false →
      (trimChars l).head? ≠ some '<' →
      PrinterInfo.parse_hardware_address l = some (trimChars l)) := by
  have hl : linesChars l = [l] := linesChars_single hne hn hr
  unfold PrinterInfo.parse_hardware_address
  rw [hl]
  constructor
  · intro h12 hhex
    rw [hwAddrLines]
    rw [if_pos ⟨h12, hhex⟩]
  · intro h12 hhex hhead
    have htne : trimChars l ≠ [] := by
      intro he
      rw [he] at h12
      cases h12
    rw [hwAddrLines]
    rw [if_neg (by
      intro hcon
      rw [hhex] at hcon
      exact Bool.false_ne_true hcon.2)]
    rw [if_pos (by
      simp only [Bool.and_eq_true, Bool.not_eq_true', List.isEmpty_eq_false,
        bne_iff_ne]
      exact ⟨htne, hhead⟩)]

/-- C8 witness: the two behaviors at the claim's concrete inputs. -/
theorem C8_witness :
    PrinterInfo.parse_hardware_address (str "001122AABBCC") = some (str "00:11:22:AA:BB:CC") ∧
    PrinterInfo.parse_hardware_address (str "ZZZZZZZZZZZZ") = some (str "ZZZZZZZZZZZZ") := by
  constructor
  · rw [(C8_hardware_address (str "001122AABBCC") (by decide) (by decide) (by decide)).1
      (by decide) (by decide)]
    decide
  · rw [(C8_hardware_address (str "ZZZZZZZZZZZZ") (by decide) (by decide) (by decide)).2
      (by decide) (by decide) (by decide)]
    decide

/-- C9: the graphic box serializer emits the three mandatory fields with
no trailing separators when both optional fields are absent, appends the
color (and then the rounding) when present, and emits an empty
placeholder field when only the rounding is present. -/
theorem C9_graphic_box_serialization :
    (∀ w h t : Nat, (ZplCommand.graphicBox w h t none none).to_zpl_string =
      str "^GB" ++ natDigits w ++ str "," ++ natDigits h ++ str "," ++ natDigits t) ∧
    (∀ (w h t : Nat) (c : Char), (ZplCommand.graphicBox w h t (some c) none).to_zpl_string =
      str "^GB" ++ natDigits w ++ str "," ++ natDigits h ++ str "," ++ natDigits t ++
        str "," ++ [c]) ∧
    (∀ (w h t : Nat) (c : Char) (r : Nat),
      (ZplCommand.graphicBox w h t (some c) (some r)).to_zpl_string =
      str "^GB" ++ natDigits w ++ str "," ++ natDigits h ++ str "," ++ natDigits t ++
        str "," ++ [c] ++ str "," ++ natDigits r) ∧
    (∀ (w h t r : Nat), (ZplCommand.graphicBox w h t none (some r)).to_zpl_string =
      str "^GB" ++ natDigits w ++ str "," ++ natDigits h ++ str "," ++ natDigits t ++
        str ",," ++ natDigits r) ∧
    (ZplCommand.graphicBox 100 50 2 none none).to_zpl_string = str "^GB100,50,2" ∧
    (ZplCommand.graphicBox 100 50 2 (some 'B') (some 3)).to_zpl_string =
      str "^GB100,50,2,B,3" ∧
    (ZplCommand.graphicBox 100 50 2 none (some 3)).to_zpl_string = str "^GB100,50,2,,3" ∧
    (ZplCommand.graphicBox 100 50 2 (some 'B') none).to_zpl_string = str "^GB100,50,2,B" :=
  ⟨fun _ _ _ => rfl, fun _ _ _ _ => rfl, fun _ _ _ _ _ => rfl, fun _ _ _ _ => rfl,
    by decide, by decide, by decide, by decide⟩

/-- C10: the private per-command serialization inside ZplLabel::to_zpl
produces exactly the text of ZplCommand::to_zpl_string joined by
commands_to_zpl: the builder path and the free-function path are the
same serializer. -/
theorem C10_label_serializer_equivalence (commands : List ZplCommand) :
    ZplLabel.to_zpl ⟨commands⟩ = commands_to_zpl commands := by
  unfold ZplLabel.to_zpl commands_to_zpl
  congr 1
